import Mathlib

set_option maxRecDepth 10000

/-!
Verification of the shell-agent command-generation pipeline: a shallow
embedding of the Go sources (internal/ai/models.go, internal/ai/ollama.go,
internal/ai/client.go, internal/feedback) together with theorems about the
inventory reconciler, the response interpreter, the safety classifier, the
pull loop and the feedback manager.

Go strings are modelled as lists of characters; float64 values that are only
assigned and compared (confidence scores, progress fractions) are modelled as
rationals; filesystem and network effects are modelled by explicit parameters
(a marker predicate for the local filesystem, an inductive remote state for
the Ollama service).
-/

namespace ShellAgent

/-- Strings are modelled as lists of characters (Go strings viewed as rune
sequences; every delimiter the code indexes on is a one-byte rune, so byte
positions and rune positions agree at every slice the code takes). -/
abbrev Str := List Char

/-- Coerce a Lean string literal into the character-list model. -/
def str (s : String) : Str := s.toList

/-- The single-quote character U+0027. -/
def sq : Char := Char.ofNat 39

/-- The backquote character U+0060 (Go code-span delimiter). -/
def bq : Char := Char.ofNat 96

/-- The opening curly brace U+007B. -/
def obrace : Char := Char.ofNat 123

/-- The closing curly brace U+007D. -/
def cbrace : Char := Char.ofNat 125

/-- Models `unicode.IsSpace` on the ASCII range (the only characters the
claims exercise). -/
def isSpaceC (c : Char) : Bool :=
  c == ' ' || c == '\t' || c == '\n' || c == '\r' ||
  c == Char.ofNat 11 || c == Char.ofNat 12

/-- Models `strings.TrimSpace`. -/
def trimSpace (s : Str) : Str :=
  ((s.dropWhile isSpaceC).reverse.dropWhile isSpaceC).reverse

/-- Tail of `strings.Split`: accumulate the current field until the
separator. -/
def splitCharAux (sep : Char) : Str → Str → List Str
  | [], acc => [acc.reverse]
  | c :: cs, acc =>
    if c == sep then acc.reverse :: splitCharAux sep cs []
    else splitCharAux sep cs (c :: acc)

/-- Models `strings.Split` with a one-character separator. -/
def splitChar (s : Str) (sep : Char) : List Str := splitCharAux sep s []

/-- Models `strings.Index` with a one-character needle (`none` is Go's -1). -/
def idxOfC (s : Str) (c : Char) : Option Nat :=
  match s with
  | [] => none
  | d :: rest => if d == c then some 0 else (idxOfC rest c).map (· + 1)

/-- Models `strings.LastIndex` with a one-character needle. -/
def lastIdxOfC (s : Str) (c : Char) : Option Nat :=
  (idxOfC s.reverse c).map (fun i => s.length - 1 - i)

/-- Models `strings.Contains` with a one-character needle. -/
def containsC (s : Str) (c : Char) : Bool := s.any (· == c)

/-- Boolean string-prefix test (first argument is the candidate pre-part). -/
def isPrefixB : Str → Str → Bool
  | [], _ => true
  | _ :: _, [] => false
  | p :: ps, c :: cs => p == c && isPrefixB ps cs

/-- Models `strings.Contains`: `pat` occurs as a contiguous substring of
`s`. -/
def containsSubB (s pat : Str) : Bool :=
  match s with
  | [] => pat.isEmpty
  | c :: rest => isPrefixB pat (c :: rest) || containsSubB rest pat

/-- Models `strings.ToLower` on one character (ASCII range). -/
def toLowerC (c : Char) : Char :=
  if c.toNat ≥ 65 && c.toNat ≤ 90 then Char.ofNat (c.toNat + 32) else c

/-- Models `strings.ToLower`. -/
def lowerS (s : Str) : Str := s.map toLowerC

/-! ## Inventory reconciler (internal/ai/models.go) -/

/-- A model record as reported by the remote Ollama service; only the `name`
field is consulted by the reconciler (`OllamaModel` in ollama.go). -/
structure OllamaModel where
  name : Str
  deriving Repr, DecidableEq

/-- The observable state of the remote Ollama service during one
reconciliation call: the availability probe fails, the probe succeeds but the
model listing fails, or the listing returns a sequence of records. -/
inductive RemoteState where
  | unreachable
  | listFailure
  | available (models : List OllamaModel)
  deriving Repr, DecidableEq

/-- `strings.Split(modelName, ":")[0]`: the portion of the queried name
before the first colon (the whole name when there is no colon). -/
def nameBeforeColon (modelName : Str) : Str := modelName.takeWhile (· != ':')

/-- The per-record matching rule of `IsModelAvailableInOllama`: exact name
equality, or the queried name's before-colon portion is a substring of the
remote-reported name. -/
def matchesRemote (remote : OllamaModel) (modelName : Str) : Bool :=
  remote.name == modelName || containsSubB remote.name (nameBeforeColon modelName)

/-- Models `ModelManager.IsModelAvailableInOllama`: false when the
availability probe fails, false when the listing fails, otherwise a scan of
the reported records with `matchesRemote`. -/
def IsModelAvailableInOllama (remote : RemoteState) (modelName : Str) : Bool :=
  match remote with
  | .unreachable => false
  | .listFailure => false
  | .available models => models.any (fun m => matchesRemote m modelName)

/-- Models `ModelManager.hasLocalMetadata`: `os.Stat` on the per-model marker
path `<modelsPath>/<name>/metadata.json`, abstracted to a predicate on model
names. -/
def hasLocalMetadata (localMarker : Str → Bool) (modelName : Str) : Bool :=
  localMarker modelName

/-- Models `ModelManager.isModelDownloaded`: the conjunction of the local
marker check and the remote availability check. -/
def isModelDownloaded (localMarker : Str → Bool) (remote : RemoteState)
    (modelName : Str) : Bool :=
  hasLocalMetadata localMarker modelName && IsModelAvailableInOllama remote modelName

/-! ## Command responses and the safety classifier (internal/ai/client.go) -/

/-- `CommandResponse` from client.go; `Confidence` (a Go float64 that is only
assigned and compared against literals) is modelled as a rational. -/
structure CommandResponse where
  command : Str
  explanation : Str
  warning : Str
  confidence : Rat
  alternatives : List Str
  deriving Repr, DecidableEq

/-- The warning-append idiom repeated three times in `CheckCommand`: join
with a newline when a warning is already present, otherwise start fresh. -/
def appendWarning (cur w : Str) : Str :=
  if cur ≠ [] then cur ++ str "\n" ++ w else w

/-- Optional append: `none` models a safety check that did not fire. -/
def appendOpt (cur : Str) : Option Str → Str
  | none => cur
  | some w => appendWarning cur w

/-- The danger warning built by `CheckCommand`, naming the matched pattern. -/
def dangerWarningText (pattern : Str) : Str :=
  str "⚠️ DANGER: This command contains " ++ [sq] ++ pattern ++ [sq] ++
    str " which can be destructive"

/-- The fixed administrative-privileges warning of `CheckCommand`. -/
def sudoWarningText : Str :=
  str "⚠️ This command requires administrative privileges"

/-- The fixed recursive-operation warning of `CheckCommand`. -/
def recursiveWarningText : Str :=
  str "⚠️ This command will operate recursively on directories"

/-- First stage of `CheckCommand`: scan the lowercased command against the
configured dangerous patterns; the loop breaks at the first match (modelled
by `List.find?`), appends the danger warning and clamps the confidence to at
most 0.5 when it is currently higher. -/
def checkDangerous (dangerousPatterns : List Str) (r : CommandResponse) :
    CommandResponse :=
  match dangerousPatterns.find?
      (fun pattern => containsSubB (lowerS r.command) (lowerS pattern)) with
  | some pattern =>
    { r with
      warning := appendWarning r.warning (dangerWarningText pattern)
      confidence := if r.confidence > 1/2 then 1/2 else r.confidence }
  | none => r

/-- Second stage of `CheckCommand`: the administrative-privileges warning,
appended when the command mentions sudo and the warning so far does not. -/
def checkSudo (r : CommandResponse) : CommandResponse :=
  if containsSubB (lowerS r.command) (str "sudo") &&
      !containsSubB r.warning (str "sudo") then
    { r with warning := appendWarning r.warning sudoWarningText }
  else r

/-- Third stage of `CheckCommand`: the recursive-operation warning, appended
when the command has a `-r` flag together with rm/chmod/chown. -/
def checkRecursive (r : CommandResponse) : CommandResponse :=
  if containsSubB (lowerS r.command) (str "-r") &&
      (containsSubB (lowerS r.command) (str "rm") ||
       containsSubB (lowerS r.command) (str "chmod") ||
       containsSubB (lowerS r.command) (str "chown")) then
    { r with warning := appendWarning r.warning recursiveWarningText }
  else r

/-- Models `SafetyChecker.CheckCommand`: an early return on an empty command,
otherwise the three checks in source order. -/
def CheckCommand (dangerousPatterns : List Str) (r : CommandResponse) :
    CommandResponse :=
  if r.command = [] then r
  else checkRecursive (checkSudo (checkDangerous dangerousPatterns r))

/-! ## Model registry (internal/ai/models.go) -/

/-- `ModelInfo` from models.go (the `Type` field is renamed `modelType`;
`Path` is never set by the catalog and stays empty). -/
structure ModelInfo where
  name : Str
  description : Str
  size : Str
  modelType : Str
  downloaded : Bool
  path : Str
  ollamaName : Str
  recommended : Bool
  deriving Repr, DecidableEq

/-- Models `ModelManager.ListAvailableModels`: the fixed six-entry catalog in
literal order, with each `downloaded` flag recomputed on every call from the
local marker and the remote state. -/
def ListAvailableModels (localMarker : Str → Bool) (remote : RemoteState) :
    List ModelInfo :=
  [ { name := str "llama3.2:3b", ollamaName := str "llama3.2:3b",
      description := str "Llama 3.2 3B - Fast and efficient for command generation",
      size := str "2.0GB", modelType := str "Language Model", path := [],
      recommended := true,
      downloaded := isModelDownloaded localMarker remote (str "llama3.2:3b") },
    { name := str "llama3.2:1b", ollamaName := str "llama3.2:1b",
      description := str "Llama 3.2 1B - Ultra-fast and lightweight",
      size := str "1.3GB", modelType := str "Language Model", path := [],
      recommended := true,
      downloaded := isModelDownloaded localMarker remote (str "llama3.2:1b") },
    { name := str "codegemma:7b", ollamaName := str "codegemma:7b",
      description := str "CodeGemma 7B - Specialized for code and shell commands",
      size := str "5.0GB", modelType := str "Code Model", path := [],
      recommended := true,
      downloaded := isModelDownloaded localMarker remote (str "codegemma:7b") },
    { name := str "llama3.1:8b", ollamaName := str "llama3.1:8b",
      description := str "Llama 3.1 8B - Balanced performance and accuracy",
      size := str "4.7GB", modelType := str "Language Model", path := [],
      recommended := false,
      downloaded := isModelDownloaded localMarker remote (str "llama3.1:8b") },
    { name := str "mistral:7b", ollamaName := str "mistral:7b",
      description := str "Mistral 7B - Good general purpose model",
      size := str "4.1GB", modelType := str "Language Model", path := [],
      recommended := false,
      downloaded := isModelDownloaded localMarker remote (str "mistral:7b") },
    { name := str "phi3:mini", ollamaName := str "phi3:mini",
      description := str "Phi-3 Mini - Microsoft's compact model",
      size := str "2.3GB", modelType := str "Small Model", path := [],
      recommended := false,
      downloaded := isModelDownloaded localMarker remote (str "phi3:mini") } ]

/-- The selection chain of `ModelManager.GetCurrentModel` over one catalog
listing: exact default match (against name or Ollama name), else first
downloaded entry, else first recommended entry, else the first entry, else
none (each Go loop is a first-match scan, `List.find?`). -/
def getCurrentModelFrom (defaultModel : Str) (models : List ModelInfo) :
    Option ModelInfo :=
  match models.find?
      (fun m => m.name == defaultModel || m.ollamaName == defaultModel) with
  | some m => some m
  | none =>
    match models.find? (fun m => m.downloaded) with
    | some m => some m
    | none =>
      match models.find? (fun m => m.recommended) with
      | some m => some m
      | none => models.head?

/-- Models `ModelManager.GetCurrentModel`. -/
def GetCurrentModel (localMarker : Str → Bool) (remote : RemoteState)
    (defaultModel : Str) : Option ModelInfo :=
  getCurrentModelFrom defaultModel (ListAvailableModels localMarker remote)

/-- The selection chain of `ModelManager.GetRecommendedModel`: first entry
both recommended and downloaded, else first recommended entry, else the
first entry, else none. -/
def getRecommendedModelFrom (models : List ModelInfo) : Option ModelInfo :=
  match models.find? (fun m => m.recommended && m.downloaded) with
  | some m => some m
  | none =>
    match models.find? (fun m => m.recommended) with
    | some m => some m
    | none => models.head?

/-- Models `ModelManager.GetRecommendedModel`. -/
def GetRecommendedModel (localMarker : Str → Bool) (remote : RemoteState) :
    Option ModelInfo :=
  getRecommendedModelFrom (ListAvailableModels localMarker remote)

/-! ## Response interpreter (internal/ai/ollama.go)

The structured path hands the brace-delimited span to `encoding/json`'s
`Unmarshal` into a `map[string]interface{}`. The decoder is modelled by a
fuel-indexed recursive parser over the JSON grammar; a JSON number (a Go
float64) is carried as the exact unnormalized fraction `num / den` read from
its decimal token, and is turned into a rational only at extraction time. -/

/-- The double-quote character U+0022. -/
def quoteC : Char := Char.ofNat 34

/-- The backslash character U+005C. -/
def backslashC : Char := Char.ofNat 92

/-- The Go `interface{}` values produced by `json.Unmarshal`: null, bool,
float64 (as the exact fraction of its decimal token), string, `[]interface{}`
and `map[string]interface{}` (the key/value pairs in document order; on a
duplicate key Go keeps the last binding, so lookups are last-wins). -/
inductive JVal where
  | jnull
  | jbool (b : Bool)
  | jnum (num : Int) (den : Nat)
  | jstr (s : Str)
  | jarr (elems : List JVal)
  | jobj (fields : List (Str × JVal))

/-- Skip JSON inter-token whitespace. -/
def skipWs : Str → Str
  | [] => []
  | c :: cs =>
    if c == ' ' || c == '\t' || c == '\n' || c == '\r' then skipWs cs
    else c :: cs

/-- Decode one hex digit. -/
def parseHexDigit (c : Char) : Option Nat :=
  if '0' ≤ c ∧ c ≤ '9' then some (c.toNat - 48)
  else if 'a' ≤ c ∧ c ≤ 'f' then some (c.toNat - 87)
  else if 'A' ≤ c ∧ c ≤ 'F' then some (c.toNat - 55)
  else none

/-- Body of a JSON string after the opening quote: plain characters up to the
closing quote, with the standard escapes; a raw control character or an
unknown escape is a decode error, as in Go. Returns the content and the rest
of the input. -/
def parseStringBody : Str → Option (Str × Str)
  | [] => none
  | c :: cs =>
    if c == quoteC then some ([], cs)
    else if c == backslashC then
      match cs with
      | [] => none
      | e :: cs' =>
        if e == quoteC then
          (parseStringBody cs').map (fun p => (quoteC :: p.1, p.2))
        else if e == backslashC then
          (parseStringBody cs').map (fun p => (backslashC :: p.1, p.2))
        else if e == '/' then
          (parseStringBody cs').map (fun p => ('/' :: p.1, p.2))
        else if e == 'b' then
          (parseStringBody cs').map (fun p => (Char.ofNat 8 :: p.1, p.2))
        else if e == 'f' then
          (parseStringBody cs').map (fun p => (Char.ofNat 12 :: p.1, p.2))
        else if e == 'n' then
          (parseStringBody cs').map (fun p => ('\n' :: p.1, p.2))
        else if e == 'r' then
          (parseStringBody cs').map (fun p => ('\r' :: p.1, p.2))
        else if e == 't' then
          (parseStringBody cs').map (fun p => ('\t' :: p.1, p.2))
        else if e == 'u' then
          match cs' with
          | h1 :: h2 :: h3 :: h4 :: rest =>
            match parseHexDigit h1, parseHexDigit h2,
                parseHexDigit h3, parseHexDigit h4 with
            | some a, some b, some c', some d =>
              (parseStringBody rest).map
                (fun p => (Char.ofNat (((a * 16 + b) * 16 + c') * 16 + d) :: p.1, p.2))
            | _, _, _, _ => none
          | _ => none
        else none
    else if c.toNat < 32 then none
    else (parseStringBody cs).map (fun p => (c :: p.1, p.2))

/-- One ASCII decimal digit. -/
def isDigitC (c : Char) : Bool := '0' ≤ c && c ≤ '9'

/-- Longest digit run at the head of the input. -/
def takeDigits : Str → (Str × Str)
  | [] => ([], [])
  | c :: cs =>
    if isDigitC c then
      let p := takeDigits cs
      (c :: p.1, p.2)
    else ([], c :: cs)

/-- Value of a digit run. -/
def digitsVal (ds : Str) : Nat :=
  ds.foldl (fun acc c => acc * 10 + (c.toNat - 48)) 0

/-- Exponent part after the `e`/`E` marker. -/
def parseExponent (s : Str) : Option (Int × Str) :=
  match s with
  | c :: cs =>
    if c == '+' then
      let p := takeDigits cs
      if p.1 = [] then none else some ((digitsVal p.1 : Int), p.2)
    else if c == '-' then
      let p := takeDigits cs
      if p.1 = [] then none else some (-(digitsVal p.1 : Int), p.2)
    else
      let p := takeDigits (c :: cs)
      if p.1 = [] then none else some ((digitsVal p.1 : Int), p.2)
  | [] => none

/-- A JSON number token: optional sign, integer digits, optional fraction,
optional exponent; the value is returned as the exact unnormalized fraction
(numerator, positive denominator). -/
def parseNumber (s : Str) : Option ((Int × Nat) × Str) :=
  let signed : Bool × Str :=
    match s with
    | c :: cs => if c == '-' then (true, cs) else (false, c :: cs)
    | [] => (false, [])
  let ip := takeDigits signed.2
  if ip.1 = [] then none
  else
    let withFrac : Option ((Nat × Nat) × Str) :=
      match ip.2 with
      | c :: cs =>
        if c == '.' then
          let fp := takeDigits cs
          if fp.1 = [] then none
          else some ((digitsVal (ip.1 ++ fp.1), 10 ^ fp.1.length), fp.2)
        else some ((digitsVal ip.1, 1), c :: cs)
      | [] => some ((digitsVal ip.1, 1), [])
    match withFrac with
    | none => none
    | some ((mant, den), s3) =>
      let withExp : Option ((Int × Nat) × Str) :=
        match s3 with
        | c :: cs =>
          if c == 'e' || c == 'E' then
            match parseExponent cs with
            | none => none
            | some (e, r) =>
              if 0 ≤ e then
                some (((mant : Int) * (10 ^ e.toNat : Nat), den), r)
              else
                some (((mant : Int), den * 10 ^ (-e).toNat), r)
          else some (((mant : Int), den), c :: cs)
        | [] => some (((mant : Int), den), [])
      match withExp with
      | none => none
      | some ((n, d), rest) =>
        some ((if signed.1 then (-n, d) else (n, d)), rest)

mutual

/-- Fuel-indexed JSON value parser (the fuel only bounds nesting; it is set
above the input length at the top level, which every recursive call strictly
consumes). -/
def parseVal : Nat → Str → Option (JVal × Str)
  | 0, _ => none
  | fuel+1, s =>
    match skipWs s with
    | [] => none
    | c :: cs =>
      if c == quoteC then
        (parseStringBody cs).map (fun p => (JVal.jstr p.1, p.2))
      else if c == obrace then
        match skipWs cs with
        | d :: ds =>
          if d == cbrace then some (JVal.jobj [], ds)
          else parseMembers fuel (d :: ds) []
        | [] => none
      else if c == '[' then
        match skipWs cs with
        | d :: ds =>
          if d == ']' then some (JVal.jarr [], ds)
          else parseElems fuel (d :: ds) []
        | [] => none
      else if c == 't' then
        if isPrefixB (str "rue") cs then some (JVal.jbool true, cs.drop 3)
        else none
      else if c == 'f' then
        if isPrefixB (str "alse") cs then some (JVal.jbool false, cs.drop 4)
        else none
      else if c == 'n' then
        if isPrefixB (str "ull") cs then some (JVal.jnull, cs.drop 3)
        else none
      else
        (parseNumber (c :: cs)).map (fun p => (JVal.jnum p.1.1 p.1.2, p.2))

/-- `"key": value` members of an object, comma-separated, up to `}`. -/
def parseMembers : Nat → Str → List (Str × JVal) → Option (JVal × Str)
  | 0, _, _ => none
  | fuel+1, s, acc =>
    match skipWs s with
    | c :: cs =>
      if c == quoteC then
        match parseStringBody cs with
        | none => none
        | some (key, r1) =>
          match skipWs r1 with
          | d :: ds =>
            if d == ':' then
              match parseVal fuel ds with
              | none => none
              | some (v, r2) =>
                match skipWs r2 with
                | e :: es =>
                  if e == ',' then parseMembers fuel es (acc ++ [(key, v)])
                  else if e == cbrace then
                    some (JVal.jobj (acc ++ [(key, v)]), es)
                  else none
                | [] => none
            else none
          | [] => none
      else none
    | [] => none

/-- Elements of an array, comma-separated, up to `]`. -/
def parseElems : Nat → Str → List JVal → Option (JVal × Str)
  | 0, _, _ => none
  | fuel+1, s, acc =>
    match parseVal fuel s with
    | none => none
    | some (v, r) =>
      match skipWs r with
      | e :: es =>
        if e == ',' then parseElems fuel es (acc ++ [v])
        else if e == ']' then some (JVal.jarr (acc ++ [v]), es)
        else none
      | [] => none

end

/-- Models `json.Unmarshal(data, &map[string]interface{})`: the input must be
exactly one JSON object plus surrounding whitespace, otherwise the decode
errors. -/
def jsonDecodeObj (s : Str) : Option (List (Str × JVal)) :=
  match parseVal (s.length + 1) s with
  | some (JVal.jobj fields, rest) =>
    if skipWs rest = [] then some fields else none
  | _ => none

/-- Go map semantics for duplicate JSON keys: the last binding wins. -/
def lastLookup (fields : List (Str × JVal)) (key : Str) : Option JVal :=
  fields.foldl (fun acc kv => if kv.1 == key then some kv.2 else acc) none

/-- `result["command"].(string)`, trimmed; empty when absent or not a
string. -/
def extractCommand (fields : List (Str × JVal)) : Str :=
  match lastLookup fields (str "command") with
  | some (JVal.jstr s) => trimSpace s
  | _ => []

/-- `result["explanation"].(string)`; empty when absent or not a string. -/
def extractExplanation (fields : List (Str × JVal)) : Str :=
  match lastLookup fields (str "explanation") with
  | some (JVal.jstr s) => s
  | _ => []

/-- `result["warning"].(string)`; empty when absent or not a string. -/
def extractWarning (fields : List (Str × JVal)) : Str :=
  match lastLookup fields (str "warning") with
  | some (JVal.jstr s) => s
  | _ => []

/-- `result["confidence"].(float64)`, defaulting to 0.8 when the key is
absent or not a number. -/
def extractConfidence (fields : List (Str × JVal)) : Rat :=
  match lastLookup fields (str "confidence") with
  | some (JVal.jnum n d) => (n : Rat) / (d : Rat)
  | _ => 8/10

/-- `result["alternatives"].([]interface{})` with each element asserted to
string; non-string elements are dropped, and a non-array (or absent) value
yields no alternatives. -/
def extractAlternatives (fields : List (Str × JVal)) : List Str :=
  match lastLookup fields (str "alternatives") with
  | some (JVal.jarr elems) =>
    elems.filterMap (fun v =>
      match v with
      | JVal.jstr s => some s
      | _ => none)
  | _ => []

/-! ### Fallback path (`fallbackParseResponse`) -/

/-- The literal placeholder command emitted when no line matches. -/
def placeholderCommand : Str :=
  str "echo " ++ [sq] ++ str "Could not parse command from AI response" ++ [sq]

/-- The fixed fallback explanation. -/
def fallbackExplanation : Str :=
  str "AI response was not in expected format, extracted command using fallback method"

/-- The fixed fallback advisory warning. -/
def fallbackWarning : Str :=
  str "Please verify this command before executing"

/-- Per-line extraction of the fallback loop body, on an already-trimmed
non-blank, non-comment line, in source priority order: (a) a `$` prompt
marker with at least one character after it takes the trimmed remainder;
(b) otherwise a pair of distinct backquotes takes the span strictly between
the first and last; (c) otherwise a non-empty line with no space is taken
whole. `none` means the loop continues with the next line. -/
def extractFromLine (line : Str) : Option Str :=
  if containsC line '$' then
    match idxOfC line '$' with
    | some idx =>
      if idx < line.length - 1 then some (trimSpace (line.drop (idx + 1)))
      else none
    | none => none
  else if containsC line bq then
    match idxOfC line bq, lastIdxOfC line bq with
    | some start, some stop =>
      if start != stop then some ((line.drop (start + 1)).take (stop - (start + 1)))
      else none
    | _, _ => none
  else if !line.isEmpty && !containsC line ' ' then some line
  else none

/-- The line scan of `fallbackParseResponse`: trim each line, skip blank and
`#`-comment lines, stop at the first line accepted by `extractFromLine`. -/
def scanLines : List Str → Option Str
  | [] => none
  | l :: ls =>
    if (trimSpace l).isEmpty || isPrefixB (str "#") (trimSpace l) then
      scanLines ls
    else
      match extractFromLine (trimSpace l) with
      | some c => some c
      | none => scanLines ls

/-- What one raw line contributes to the fallback scan: nothing when it is
blank or a comment, else its `extractFromLine` result (used to state the
first-match property of the scan). -/
def lineCandidate (l : Str) : Option Str :=
  if (trimSpace l).isEmpty || isPrefixB (str "#") (trimSpace l) then none
  else extractFromLine (trimSpace l)

/-- The command chosen by `fallbackParseResponse`: the scan result, replaced
by the placeholder when the scan finds nothing or extracts an empty
command. -/
def fallbackCommand (response : Str) : Str :=
  let command :=
    match scanLines (splitChar response '\n') with
    | some c => c
    | none => []
  if command = [] then placeholderCommand else command

/-- Models `fallbackParseResponse`: a total function with fixed explanation,
fixed advisory warning and fixed confidence 0.3. -/
def fallbackParseResponse (response : Str) : CommandResponse :=
  { command := fallbackCommand response
    explanation := fallbackExplanation
    warning := fallbackWarning
    confidence := 3/10
    alternatives := [] }

/-! ### Structured path (`parseOllamaResponse`) -/

/-- The brace-delimited span `response[startIdx : endIdx+1]` handed to the
decoder. -/
def structuredSpan (response : Str) (startIdx endIdx : Nat) : Str :=
  (response.drop startIdx).take (endIdx + 1 - startIdx)

/-- Models `parseOllamaResponse`. `none` models the one input class on which
the Go code panics: when the first `{` sits more than one position past the
last `}`, the slice `response[startIdx : endIdx+1]` has low > high and
raises a runtime bounds error. -/
def parseOllamaResponse (response0 : Str) : Option CommandResponse :=
  match idxOfC (trimSpace response0) obrace,
      lastIdxOfC (trimSpace response0) cbrace with
  | some startIdx, some endIdx =>
    if startIdx > endIdx + 1 then none
    else
      match jsonDecodeObj (structuredSpan (trimSpace response0) startIdx endIdx) with
      | none => some (fallbackParseResponse (trimSpace response0))
      | some fields =>
        if extractCommand fields = [] ∧ extractWarning fields = [] then
          some (fallbackParseResponse (trimSpace response0))
        else
          some { command := extractCommand fields
                 explanation := extractExplanation fields
                 warning := extractWarning fields
                 confidence := extractConfidence fields
                 alternatives := extractAlternatives fields }
  | _, _ => some (fallbackParseResponse (trimSpace response0))

/-- The synthetic structured reply of C3:
`{"command":"ls -la","explanation":"x","confidence":0.9}`. -/
def cJsonReply : Str :=
  [obrace] ++ str "\"command\":\"ls -la\",\"explanation\":\"x\",\"confidence\":0.9"
    ++ [cbrace]

/-- The key/value document the decoder produces for `cJsonReply`. -/
def cJsonFields : List (Str × JVal) :=
  [(str "command", JVal.jstr (str "ls -la")),
   (str "explanation", JVal.jstr (str "x")),
   (str "confidence", JVal.jnum 9 10)]

/-- The literal free-text reply of C4. -/
def cFallbackReply : Str := str "Sure! Try this:\n\n$ du -sh .\n"

/-! ## Streaming pull and download (internal/ai/ollama.go `PullModel`,
internal/ai/models.go `DownloadModel`) -/

/-- `OllamaPullResponse`: one decoded line of the streaming pull reply. -/
structure OllamaPullResponse where
  status : Str
  digest : Str
  total : Int
  completed : Int
  error : Str
  deriving Repr, DecidableEq

/-- The per-record progress fraction: `completed/total` computed only when
`total` is positive (the division-by-zero guard), else 0. -/
def pullProgress (r : OllamaPullResponse) : Rat :=
  if r.total > 0 then (r.completed : Rat) / (r.total : Rat) else 0

/-- Models the decode loop of `PullModel` over the already-received stream:
`records` are the decoded progress lines in order, `tailDecodeError` marks a
malformed line after them (json decode failure). The result is the sequence
of (status, progress) pairs handed to the progress callback, in order, and
the final outcome. A record with a non-empty error field aborts immediately,
before that record reaches the callback; end of stream without one is
success. -/
def PullModel : List OllamaPullResponse → Bool → List (Str × Rat) × Except Str Unit
  | [], true => ([], Except.error (str "failed to decode response"))
  | [], false => ([], Except.ok ())
  | r :: rs, tailErr =>
    if r.error ≠ [] then ([], Except.error (str "ollama error: " ++ r.error))
    else
      ((r.status, pullProgress r) :: (PullModel rs tailErr).1,
       (PullModel rs tailErr).2)

/-- Models `ModelManager.DownloadModel`: look the model up in the catalog,
probe the service, refuse an already-available model, pull, and only after a
successful pull create the local metadata marker. The second component
records whether the marker was created. -/
def DownloadModel (localMarker : Str → Bool) (remote : RemoteState)
    (records : List OllamaPullResponse) (tailDecodeError : Bool)
    (modelName : Str) : Except Str Unit × Bool :=
  match (ListAvailableModels localMarker remote).find?
      (fun m => m.name == modelName) with
  | none => (Except.error (str "unknown model: " ++ modelName), false)
  | some modelInfo =>
    match remote with
    | RemoteState.unreachable =>
      (Except.error (str "ollama service is not available"), false)
    | _ =>
      if IsModelAvailableInOllama remote modelInfo.ollamaName then
        (Except.error (str "model is already downloaded in Ollama"), false)
      else
        match (PullModel records tailDecodeError).2 with
        | Except.error e =>
          (Except.error (str "failed to download model: " ++ e), false)
        | Except.ok _ => (Except.ok (), true)

/-! ## Generation pipeline (internal/ai/client.go `GenerateCommand`) -/

/-- The configuration values `GenerateCommand` consults (internal/config):
`ai.default_model`, `safety.dangerous_commands`, `safety.require_confirm`. -/
structure Config where
  defaultModel : Str
  dangerousCommands : List Str
  requireConfirm : Bool

/-- The observable outcome of the single `POST /api/generate` exchange:
transport/HTTP failure, a decoded reply with a non-empty error field, or a
decoded reply whose `response` text is `raw`. -/
inductive GenOutcome where
  | httpFailure
  | errorField (msg : Str)
  | ok (raw : Str)

/-- What a call to the pipeline can do: return an error, return a typed
response, or crash (the interpreter's slice panic propagating). -/
inductive GenResult where
  | failure (msg : Str)
  | success (r : CommandResponse)
  | crash
  deriving Repr, DecidableEq

/-- Models `OllamaClient.Generate`: surface transport errors and the reply's
error field, otherwise hand the raw reply text to `parseOllamaResponse`. -/
def Generate (outcome : GenOutcome) : GenResult :=
  match outcome with
  | GenOutcome.httpFailure => GenResult.failure (str "failed to send request to ollama")
  | GenOutcome.errorField msg => GenResult.failure (str "ollama error: " ++ msg)
  | GenOutcome.ok raw =>
    match parseOllamaResponse raw with
    | none => GenResult.crash
    | some r => GenResult.success r

/-- Models `Client.GenerateCommand`: availability probe, current-model
selection, remote presence check, generation, and — only when
`safety.require_confirm` is set — the safety classifier pass on the
interpreted response. -/
def GenerateCommand (cfg : Config) (localMarker : Str → Bool)
    (remote : RemoteState) (outcome : GenOutcome) : GenResult :=
  match remote with
  | RemoteState.unreachable =>
    GenResult.failure (str "ollama service is not available")
  | _ =>
    match GetCurrentModel localMarker remote cfg.defaultModel with
    | none => GenResult.failure (str "no AI model configured")
    | some currentModel =>
      if !IsModelAvailableInOllama remote currentModel.name then
        GenResult.failure (str "model is not available in Ollama")
      else
        match Generate outcome with
        | GenResult.failure msg =>
          GenResult.failure (str "failed to generate command: " ++ msg)
        | GenResult.crash => GenResult.crash
        | GenResult.success response =>
          if cfg.requireConfirm then
            GenResult.success (CheckCommand cfg.dangerousCommands response)
          else
            GenResult.success response

/-- A reply whose command is dangerous and which carries no confidence key
(so the default 0.8 applies). -/
def cDangerReply : Str :=
  [obrace] ++ str "\"command\":\"rm -rf /tmp/x\"" ++ [cbrace]

/-- The interpreted response for `cDangerReply`. -/
def cDangerResp : CommandResponse :=
  { command := str "rm -rf /tmp/x", explanation := [], warning := [],
    confidence := 8/10, alternatives := [] }

/-- A config with the safety gate off. -/
def cfgNoConfirm : Config :=
  { defaultModel := str "llama3.2:3b",
    dangerousCommands := [str "rm -rf"],
    requireConfirm := false }

/-- A config with the safety gate on. -/
def cfgConfirm : Config :=
  { defaultModel := str "llama3.2:3b",
    dangerousCommands := [str "rm -rf"],
    requireConfirm := true }

/-- A remote state reporting the default model. -/
def remoteStd : RemoteState := RemoteState.available [⟨str "llama3.2:3b"⟩]

/-! ## Feedback manager (internal/feedback) -/

/-- An operation on the feedback manager's single `sync.Mutex`. -/
inductive LockEvent where
  | lock
  | unlock
  deriving Repr, DecidableEq

/-- Executes a straight-line sequence of mutex operations performed by one
goroutine with no other goroutine running: `sync.Mutex` is not reentrant, so
acquiring while already held blocks forever (`none`); otherwise the final
held-state is returned. -/
def runLockTrace : Bool → List LockEvent → Option Bool
  | held, [] => some held
  | held, LockEvent.lock :: rest =>
    if held then none else runLockTrace true rest
  | _, LockEvent.unlock :: rest => runLockTrace false rest

/-- The mutex operations of `Manager.LoadFeedback`: `m.mu.Lock()` then the
deferred `m.mu.Unlock()` on return. -/
def loadFeedbackLockTrace : List LockEvent :=
  [LockEvent.lock, LockEvent.unlock]

/-- The mutex operations of `Manager.SaveFeedback`: `m.mu.Lock()`, then the
inlined `m.LoadFeedback()` call on the same mutex, then the deferred
`m.mu.Unlock()`. -/
def saveFeedbackLockTrace : List LockEvent :=
  LockEvent.lock :: (loadFeedbackLockTrace ++ [LockEvent.unlock])

/-! ## Theorems -/

/-- C1: `isModelDownloaded` returns true only if both the local metadata
marker exists and the remote service reports a record matching the queried
name (exact equality, or the queried name's before-first-colon portion is a
substring of the remote-reported name). -/
theorem isModelDownloaded_only_if (localMarker : Str → Bool)
    (remote : RemoteState) (name : Str)
    (h : isModelDownloaded localMarker remote name = true) :
    hasLocalMetadata localMarker name = true ∧
    ∃ ms, remote = RemoteState.available ms ∧
      ∃ m ∈ ms,
        (m.name == name || containsSubB m.name (nameBeforeColon name)) = true := by
  unfold isModelDownloaded at h
  rw [Bool.and_eq_true] at h
  refine ⟨h.1, ?_⟩
  rcases h with ⟨-, h2⟩
  cases remote with
  | unreachable => simp [IsModelAvailableInOllama] at h2
  | listFailure => simp [IsModelAvailableInOllama] at h2
  | available ms =>
    refine ⟨ms, rfl, ?_⟩
    unfold IsModelAvailableInOllama at h2
    rw [List.any_eq_true] at h2
    rcases h2 with ⟨m, hm, hmatch⟩
    exact ⟨m, hm, hmatch⟩

/-- Witness for C1 at a concrete input: marker present and the remote
reporting exactly the queried name. -/
theorem isModelDownloaded_only_if_witness :
    isModelDownloaded (fun _ => true)
        (RemoteState.available [⟨str "llama3.2:3b"⟩]) (str "llama3.2:3b") = true ∧
    (hasLocalMetadata (fun _ => true) (str "llama3.2:3b") = true ∧
     ∃ ms, RemoteState.available [⟨str "llama3.2:3b"⟩] = RemoteState.available ms ∧
       ∃ m ∈ ms,
         (m.name == str "llama3.2:3b" ||
          containsSubB m.name (nameBeforeColon (str "llama3.2:3b"))) = true) :=
  ⟨by decide, isModelDownloaded_only_if _ _ _ (by decide)⟩

/-- C2: when the remote availability probe fails, `isModelDownloaded` is
false for every model name and every local marker state, and (being a total
boolean function) raises no error. -/
theorem isModelDownloaded_unreachable_false (localMarker : Str → Bool)
    (name : Str) :
    isModelDownloaded localMarker RemoteState.unreachable name = false := by
  simp [isModelDownloaded, IsModelAvailableInOllama]

/-! ### String lemmas for the classifier -/

theorem isPrefixB_refl (s : Str) : isPrefixB s s = true := by
  induction s with
  | nil => rfl
  | cons c cs ih => simp [isPrefixB, ih]

theorem isPrefixB_append_self (s t : Str) : isPrefixB s (s ++ t) = true := by
  induction s with
  | nil => rfl
  | cons c cs ih => simp [isPrefixB, ih]

theorem isPrefixB_trans {a b c : Str} (h1 : isPrefixB a b = true)
    (h2 : isPrefixB b c = true) : isPrefixB a c = true := by
  induction a generalizing b c with
  | nil => rfl
  | cons x xs ih =>
    cases b with
    | nil => simp [isPrefixB] at h1
    | cons y ys =>
      cases c with
      | nil => simp [isPrefixB] at h2
      | cons z zs =>
        simp only [isPrefixB, Bool.and_eq_true, beq_iff_eq] at h1 h2 ⊢
        exact ⟨h1.1.trans h2.1, ih h1.2 h2.2⟩

theorem appendWarning_keeps_front (cur w : Str) :
    isPrefixB cur (appendWarning cur w) = true := by
  by_cases h : cur = []
  · subst h; rfl
  · unfold appendWarning
    rw [if_pos h, List.append_assoc]
    exact isPrefixB_append_self _ _

theorem appendOpt_keeps_front (cur : Str) (w : Option Str) :
    isPrefixB cur (appendOpt cur w) = true := by
  cases w with
  | none => exact isPrefixB_refl cur
  | some w => exact appendWarning_keeps_front cur w

theorem containsSubB_nil_pat (s : Str) : containsSubB s [] = true := by
  cases s <;> simp [containsSubB, isPrefixB]

theorem containsSubB_append_left {s pat : Str} (t : Str)
    (h : containsSubB s pat = true) : containsSubB (s ++ t) pat = true := by
  induction s with
  | nil =>
    simp only [containsSubB, List.isEmpty_iff] at h
    subst h
    exact containsSubB_nil_pat t
  | cons c cs ih =>
    simp only [containsSubB, Bool.or_eq_true] at h ⊢
    rcases h with h | h
    · left
      exact isPrefixB_trans h (isPrefixB_append_self _ _)
    · right
      exact ih h

theorem containsSubB_append_right {s pat : Str} (t : Str)
    (h : containsSubB s pat = true) : containsSubB (t ++ s) pat = true := by
  induction t with
  | nil => exact h
  | cons c cs ih =>
    simp only [List.cons_append, containsSubB, Bool.or_eq_true]
    right
    exact ih

theorem containsSubB_self_left (pat t : Str) :
    containsSubB (pat ++ t) pat = true := by
  cases pat with
  | nil => exact containsSubB_nil_pat t
  | cons p ps =>
    simp only [List.cons_append, containsSubB, Bool.or_eq_true]
    left
    simp [isPrefixB, isPrefixB_append_self]

theorem containsSubB_dangerText (pattern : Str) :
    containsSubB (dangerWarningText pattern) pattern = true := by
  unfold dangerWarningText
  simp only [List.append_assoc]
  exact containsSubB_append_right _
    (containsSubB_append_right _ (containsSubB_self_left _ _))

theorem containsSubB_appendWarning {cur pat w : Str}
    (h : containsSubB w pat = true) :
    containsSubB (appendWarning cur w) pat = true := by
  by_cases hc : cur = []
  · unfold appendWarning
    rw [if_neg (not_not_intro hc)]
    exact h
  · unfold appendWarning
    rw [if_pos hc, List.append_assoc]
    exact containsSubB_append_right _ (containsSubB_append_right _ h)

theorem containsSubB_appendOpt {cur pat : Str} (w : Option Str)
    (h : containsSubB cur pat = true) :
    containsSubB (appendOpt cur w) pat = true := by
  cases w with
  | none => exact h
  | some w =>
    show containsSubB (appendWarning cur w) pat = true
    by_cases hc : cur = []
    · subst hc
      cases pat with
      | nil => exact containsSubB_nil_pat _
      | cons p ps => simp [containsSubB] at h
    · unfold appendWarning
      rw [if_pos hc]
      exact containsSubB_append_left _ (containsSubB_append_left _ h)

/-! ### Shape of each classifier stage -/

theorem checkDangerous_shape (pats : List Str) (r : CommandResponse) :
    (pats.find? (fun pattern => containsSubB (lowerS r.command) (lowerS pattern))
        = none ∧ checkDangerous pats r = r) ∨
    (∃ p, pats.find? (fun pattern => containsSubB (lowerS r.command) (lowerS pattern))
        = some p ∧
      checkDangerous pats r =
        { r with
          warning := appendWarning r.warning (dangerWarningText p)
          confidence := if r.confidence > 1/2 then 1/2 else r.confidence }) := by
  cases h : pats.find?
      (fun pattern => containsSubB (lowerS r.command) (lowerS pattern)) with
  | none =>
    left
    exact ⟨rfl, by simp [checkDangerous, h]⟩
  | some p =>
    right
    exact ⟨p, rfl, by simp [checkDangerous, h]⟩

theorem checkSudo_shape (r : CommandResponse) :
    ∃ w : Option Str, (w = none ∨ w = some sudoWarningText) ∧
      checkSudo r = { r with warning := appendOpt r.warning w } := by
  by_cases h : (containsSubB (lowerS r.command) (str "sudo") &&
      !containsSubB r.warning (str "sudo")) = true
  · exact ⟨some sudoWarningText, Or.inr rfl, by simp [checkSudo, h, appendOpt]⟩
  · exact ⟨none, Or.inl rfl, by simp [checkSudo, h, appendOpt]⟩

theorem checkRecursive_shape (r : CommandResponse) :
    ∃ w : Option Str, (w = none ∨ w = some recursiveWarningText) ∧
      checkRecursive r = { r with warning := appendOpt r.warning w } := by
  by_cases h : (containsSubB (lowerS r.command) (str "-r") &&
      (containsSubB (lowerS r.command) (str "rm") ||
       containsSubB (lowerS r.command) (str "chmod") ||
       containsSubB (lowerS r.command) (str "chown"))) = true
  · exact ⟨some recursiveWarningText, Or.inr rfl,
      by simp [checkRecursive, h, appendOpt]⟩
  · exact ⟨none, Or.inl rfl, by simp [checkRecursive, h, appendOpt]⟩

theorem clamp_le_self (c : Rat) : (if c > 1/2 then (1:Rat)/2 else c) ≤ c := by
  by_cases h : c > 1/2
  · rw [if_pos h]; exact le_of_lt h
  · rw [if_neg h]

/-- C5 (amended with a non-empty command; the classifier early-returns on an
empty command): when the lowercased command contains some configured
dangerous pattern, `CheckCommand` appends a warning naming the first matching
pattern (the scan stops there), the previous warning text survives as a
prefix, and the confidence is clamped to at most 0.5 exactly when it was
higher. -/
theorem checkCommand_dangerous_clamps (pats : List Str) (r : CommandResponse)
    (hcmd : r.command ≠ [])
    (h : ∃ p ∈ pats, containsSubB (lowerS r.command) (lowerS p) = true) :
    ∃ p0, pats.find? (fun pattern => containsSubB (lowerS r.command) (lowerS pattern))
        = some p0 ∧
      containsSubB (CheckCommand pats r).warning p0 = true ∧
      isPrefixB r.warning (CheckCommand pats r).warning = true ∧
      (CheckCommand pats r).confidence
        = (if r.confidence > 1/2 then (1:Rat)/2 else r.confidence) ∧
      (CheckCommand pats r).confidence ≤ 1/2 := by
  have hsome : (pats.find?
      (fun pattern => containsSubB (lowerS r.command) (lowerS pattern))).isSome := by
    rw [List.find?_isSome]
    rcases h with ⟨p, hp, hc⟩
    exact ⟨p, hp, hc⟩
  have hCC : CheckCommand pats r =
      checkRecursive (checkSudo (checkDangerous pats r)) := by
    unfold CheckCommand
    rw [if_neg hcmd]
  rcases checkDangerous_shape pats r with ⟨hnone, -⟩ | ⟨p, hp, hr1⟩
  · rw [hnone] at hsome; cases hsome
  · refine ⟨p, hp, ?_⟩
    rcases checkSudo_shape (checkDangerous pats r) with ⟨w2, -, hr2⟩
    rcases checkRecursive_shape (checkSudo (checkDangerous pats r)) with ⟨w3, -, hr3⟩
    have hw : (CheckCommand pats r).warning =
        appendOpt (appendOpt
          (appendWarning r.warning (dangerWarningText p))
          w2) w3 := by
      rw [hCC, hr3, hr2, hr1]
    have hconf : (CheckCommand pats r).confidence
        = (if r.confidence > 1/2 then (1:Rat)/2 else r.confidence) := by
      rw [hCC, hr3, hr2, hr1]
    refine ⟨?_, ?_, hconf, ?_⟩
    · rw [hw]
      exact containsSubB_appendOpt _ (containsSubB_appendOpt _
        (containsSubB_appendWarning (containsSubB_dangerText p)))
    · rw [hw]
      exact isPrefixB_trans (appendWarning_keeps_front _ _)
        (isPrefixB_trans (appendOpt_keeps_front _ _) (appendOpt_keeps_front _ _))
    · rw [hconf]
      by_cases hgt : r.confidence > 1/2
      · rw [if_pos hgt]
      · rw [if_neg hgt]
        exact le_of_not_lt hgt

/-- Witness for C5 at a concrete input: confidence 0.95 and a command
containing the configured pattern "rm -rf". -/
theorem checkCommand_dangerous_clamps_witness :
    (str "rm -rf /tmp/x" ≠ ([] : Str) ∧
     ∃ p ∈ [str "rm -rf"],
       containsSubB (lowerS (str "rm -rf /tmp/x")) (lowerS p) = true) ∧
    ∃ p0, ([str "rm -rf"]).find?
        (fun pattern =>
          containsSubB (lowerS (str "rm -rf /tmp/x")) (lowerS pattern)) = some p0 ∧
      containsSubB (CheckCommand [str "rm -rf"]
          ⟨str "rm -rf /tmp/x", [], [], 95/100, []⟩).warning p0 = true ∧
      isPrefixB ([] : Str) (CheckCommand [str "rm -rf"]
          ⟨str "rm -rf /tmp/x", [], [], 95/100, []⟩).warning = true ∧
      (CheckCommand [str "rm -rf"]
          ⟨str "rm -rf /tmp/x", [], [], 95/100, []⟩).confidence
        = (if (95/100 : Rat) > 1/2 then (1:Rat)/2 else 95/100) ∧
      (CheckCommand [str "rm -rf"]
          ⟨str "rm -rf /tmp/x", [], [], 95/100, []⟩).confidence ≤ 1/2 :=
  ⟨⟨by decide, ⟨str "rm -rf", by decide⟩⟩,
   checkCommand_dangerous_clamps [str "rm -rf"]
     ⟨str "rm -rf /tmp/x", [], [], 95/100, []⟩ (by decide)
     ⟨str "rm -rf", by decide⟩⟩

/-- C5 as literally stated fails on the code: with the empty string among the
configured dangerous patterns, an empty command contains a configured pattern
(Go `strings.Contains("", "") = true`), yet `CheckCommand` early-returns on
the empty command, appends no warning and leaves confidence 0.95 above the
claimed 0.5 bound. -/
theorem checkCommand_dangerous_counterexample :
    containsSubB (lowerS ([] : Str)) (lowerS ([] : Str)) = true ∧
    CheckCommand [([] : Str)]
        ⟨[], [], [], 95/100, []⟩ = ⟨[], [], [], 95/100, []⟩ ∧
    ¬((CheckCommand [([] : Str)]
        ⟨[], [], [], 95/100, []⟩).confidence ≤ 1/2) := by
  refine ⟨rfl, rfl, ?_⟩
  show ¬((95/100 : Rat) ≤ 1/2)
  norm_num

/-- C7: the classifier never deletes or replaces existing warning text (the
old warning is a prefix of the new one, and the new one is the old plus, in
this order, an optional danger warning, an optional privilege warning and an
optional recursive-operation warning, joined by newlines), never increases
the confidence, and leaves the response unchanged when the command is empty
or triggers none of the three checks. -/
theorem checkCommand_append_only (pats : List Str) (r : CommandResponse) :
    isPrefixB r.warning (CheckCommand pats r).warning = true ∧
    (CheckCommand pats r).confidence ≤ r.confidence ∧
    (∃ w1 w2 w3 : Option Str,
      (w1 = none ∨ ∃ p, w1 = some (dangerWarningText p)) ∧
      (w2 = none ∨ w2 = some sudoWarningText) ∧
      (w3 = none ∨ w3 = some recursiveWarningText) ∧
      (CheckCommand pats r).warning
        = appendOpt (appendOpt (appendOpt r.warning w1) w2) w3) ∧
    (r.command = [] → CheckCommand pats r = r) ∧
    (pats.find? (fun pattern => containsSubB (lowerS r.command) (lowerS pattern))
        = none →
      containsSubB (lowerS r.command) (str "sudo") = false →
      (containsSubB (lowerS r.command) (str "-r") &&
        (containsSubB (lowerS r.command) (str "rm") ||
         containsSubB (lowerS r.command) (str "chmod") ||
         containsSubB (lowerS r.command) (str "chown"))) = false →
      CheckCommand pats r = r) := by
  by_cases hcmd : r.command = []
  · have hid : CheckCommand pats r = r := by
      unfold CheckCommand
      rw [if_pos hcmd]
    refine ⟨?_, ?_, ⟨none, none, none, Or.inl rfl, Or.inl rfl, Or.inl rfl, ?_⟩,
      fun _ => hid, fun _ _ _ => hid⟩
    · rw [hid]; exact isPrefixB_refl _
    · rw [hid]
    · rw [hid]; rfl
  · have hCC : CheckCommand pats r =
        checkRecursive (checkSudo (checkDangerous pats r)) := by
      unfold CheckCommand
      rw [if_neg hcmd]
    rcases checkSudo_shape (checkDangerous pats r) with ⟨w2, hw2, hr2⟩
    rcases checkRecursive_shape (checkSudo (checkDangerous pats r)) with ⟨w3, hw3, hr3⟩
    have hd := checkDangerous_shape pats r
    have hconf1 : (checkDangerous pats r).confidence ≤ r.confidence := by
      rcases hd with ⟨-, h1⟩ | ⟨p, -, h1⟩
      · rw [h1]
      · rw [h1]
        exact clamp_le_self _
    have hshape1 : ∃ w1 : Option Str,
        (w1 = none ∨ ∃ p, w1 = some (dangerWarningText p)) ∧
        (checkDangerous pats r).warning = appendOpt r.warning w1 := by
      rcases hd with ⟨-, h1⟩ | ⟨p, -, h1⟩
      · exact ⟨none, Or.inl rfl, by rw [h1]; rfl⟩
      · exact ⟨some (dangerWarningText p), Or.inr ⟨p, rfl⟩, by rw [h1]; rfl⟩
    rcases hshape1 with ⟨w1, hw1, hwarn1⟩
    refine ⟨?_, ?_, ⟨w1, w2, w3, hw1, hw2, hw3, ?_⟩, fun he => absurd he hcmd, ?_⟩
    · rw [hCC, hr3, hr2]
      show isPrefixB r.warning
        (appendOpt (appendOpt (checkDangerous pats r).warning w2) w3) = true
      rw [hwarn1]
      exact isPrefixB_trans (appendOpt_keeps_front _ _)
        (isPrefixB_trans (appendOpt_keeps_front _ _) (appendOpt_keeps_front _ _))
    · rw [hCC, hr3, hr2]
      exact hconf1
    · rw [hCC, hr3, hr2]
      show appendOpt (appendOpt (checkDangerous pats r).warning w2) w3
        = appendOpt (appendOpt (appendOpt r.warning w1) w2) w3
      rw [hwarn1]
    · intro hfind hsudo hrec
      have h1 : checkDangerous pats r = r := by
        rcases hd with ⟨-, h1⟩ | ⟨p, hp, -⟩
        · exact h1
        · rw [hfind] at hp; cases hp
      have h2 : checkSudo r = r := by
        unfold checkSudo
        rw [if_neg]
        simp [hsudo]
      have h3 : checkRecursive r = r := by
        unfold checkRecursive
        rw [if_neg]
        simp [hrec]
      rw [hCC, h1, h2, h3]

/-- Witness for C7's conditional parts at a concrete input: a clean command
touching none of the configured patterns, sudo, or recursive markers. -/
theorem checkCommand_append_only_witness :
    isPrefixB (str "w0") (CheckCommand [str "rm -rf"]
        ⟨str "ls", [], str "w0", 9/10, []⟩).warning = true ∧
    (CheckCommand [str "rm -rf"]
        ⟨str "ls", [], str "w0", 9/10, []⟩).confidence ≤ 9/10 ∧
    (∃ w1 w2 w3 : Option Str,
      (w1 = none ∨ ∃ p, w1 = some (dangerWarningText p)) ∧
      (w2 = none ∨ w2 = some sudoWarningText) ∧
      (w3 = none ∨ w3 = some recursiveWarningText) ∧
      (CheckCommand [str "rm -rf"]
          ⟨str "ls", [], str "w0", 9/10, []⟩).warning
        = appendOpt (appendOpt (appendOpt (str "w0") w1) w2) w3) ∧
    (str "ls" = ([] : Str) → CheckCommand [str "rm -rf"]
        ⟨str "ls", [], str "w0", 9/10, []⟩ = ⟨str "ls", [], str "w0", 9/10, []⟩) ∧
    (([str "rm -rf"]).find?
        (fun pattern => containsSubB (lowerS (str "ls")) (lowerS pattern)) = none →
      containsSubB (lowerS (str "ls")) (str "sudo") = false →
      (containsSubB (lowerS (str "ls")) (str "-r") &&
        (containsSubB (lowerS (str "ls")) (str "rm") ||
         containsSubB (lowerS (str "ls")) (str "chmod") ||
         containsSubB (lowerS (str "ls")) (str "chown"))) = false →
      CheckCommand [str "rm -rf"]
        ⟨str "ls", [], str "w0", 9/10, []⟩ = ⟨str "ls", [], str "w0", 9/10, []⟩) :=
  checkCommand_append_only [str "rm -rf"] ⟨str "ls", [], str "w0", 9/10, []⟩

theorem find?_of_filter_singleton {α} (p : α → Bool) :
    ∀ {l : List α} {a : α}, l.filter p = [a] → l.find? p = some a := by
  intro l
  induction l with
  | nil => intro a h; simp at h
  | cons x xs ih =>
    intro a h
    by_cases hx : p x = true
    · simp only [List.filter_cons, hx, if_pos, List.cons.injEq] at h
      simp only [List.find?_cons, hx, cond_true]
      exact congrArg some h.1
    · have hx' : p x = false := by
        cases hpx : p x
        · rfl
        · exact absurd hpx hx
      simp only [List.filter_cons, hx', Bool.false_eq_true, if_false] at h
      simp only [List.find?_cons, hx']
      exact ih h

/-- C6: the `current()` selection precedence — (1) exact match of the
configured default against name or remote identifier, (2) first descriptor
with downloaded true whenever the default matches nothing (and in
particular, deterministically, the unique downloaded entry when there is
exactly one), (3) first recommended entry, (4) first entry in catalog order,
(5) none on the empty catalog, on which `recommended()` is also none. -/
theorem getCurrentModel_precedence (d : Str) (models : List ModelInfo) :
    (models = [] →
      getCurrentModelFrom d models = none ∧ getRecommendedModelFrom models = none) ∧
    (∀ m0, models.find? (fun m => m.name == d || m.ollamaName == d) = some m0 →
      getCurrentModelFrom d models = some m0) ∧
    (models.find? (fun m => m.name == d || m.ollamaName == d) = none →
      ∀ m0, models.find? (fun m => m.downloaded) = some m0 →
        getCurrentModelFrom d models = some m0) ∧
    (models.find? (fun m => m.name == d || m.ollamaName == d) = none →
      ∀ m0, models.filter (fun m => m.downloaded) = [m0] →
        getCurrentModelFrom d models = some m0) ∧
    (models.find? (fun m => m.name == d || m.ollamaName == d) = none →
      models.find? (fun m => m.downloaded) = none →
      ∀ m0, models.find? (fun m => m.recommended) = some m0 →
        getCurrentModelFrom d models = some m0) ∧
    (models.find? (fun m => m.name == d || m.ollamaName == d) = none →
      models.find? (fun m => m.downloaded) = none →
      models.find? (fun m => m.recommended) = none →
      getCurrentModelFrom d models = models.head?) := by
  refine ⟨?_, ?_, ?_, ?_, ?_, ?_⟩
  · rintro rfl
    exact ⟨rfl, rfl⟩
  · intro m0 h
    unfold getCurrentModelFrom
    rw [h]
  · intro hex m0 hdl
    unfold getCurrentModelFrom
    rw [hex, hdl]
  · intro hex m0 hfil
    unfold getCurrentModelFrom
    rw [hex, find?_of_filter_singleton _ hfil]
  · intro hex hdl m0 hrec
    unfold getCurrentModelFrom
    rw [hex, hdl, hrec]
  · intro hex hdl hrec
    unfold getCurrentModelFrom
    rw [hex, hdl, hrec]

/-- Witness for C6 on the real catalog: the configured default "nope"
matches no entry; with the remote reporting llama3.1:8b and mistral:7b, two
entries are downloaded and `current()` returns the first of them; with the
remote reporting only llama3.1:8b, exactly one entry is downloaded and
`current()` returns it; the empty catalog yields none for both selectors. -/
theorem getCurrentModel_precedence_witness :
    getCurrentModelFrom (str "nope")
        (ListAvailableModels (fun _ => true)
          (RemoteState.available [⟨str "llama3.1:8b"⟩, ⟨str "mistral:7b"⟩]))
      = some
        { name := str "llama3.1:8b", ollamaName := str "llama3.1:8b",
          description := str "Llama 3.1 8B - Balanced performance and accuracy",
          size := str "4.7GB", modelType := str "Language Model", path := [],
          recommended := false, downloaded := true } ∧
    getCurrentModelFrom (str "nope")
        (ListAvailableModels (fun _ => true)
          (RemoteState.available [⟨str "llama3.1:8b"⟩]))
      = some
        { name := str "llama3.1:8b", ollamaName := str "llama3.1:8b",
          description := str "Llama 3.1 8B - Balanced performance and accuracy",
          size := str "4.7GB", modelType := str "Language Model", path := [],
          recommended := false, downloaded := true } ∧
    getCurrentModelFrom (str "nope") [] = none ∧
    getRecommendedModelFrom [] = none :=
  ⟨(getCurrentModel_precedence (str "nope")
      (ListAvailableModels (fun _ => true)
        (RemoteState.available [⟨str "llama3.1:8b"⟩, ⟨str "mistral:7b"⟩]))).2.2.1
    (by decide) _ (by decide),
   (getCurrentModel_precedence (str "nope")
      (ListAvailableModels (fun _ => true)
        (RemoteState.available [⟨str "llama3.1:8b"⟩]))).2.2.2.1
    (by decide) _ (by decide),
   ((getCurrentModel_precedence (str "nope") []).1 rfl).1,
   ((getCurrentModel_precedence (str "nope") []).1 rfl).2⟩

theorem scanLines_eq_findSome (ls : List Str) :
    scanLines ls = ls.findSome? lineCandidate := by
  induction ls with
  | nil => rfl
  | cons l ls ih =>
    by_cases h : ((trimSpace l).isEmpty || isPrefixB (str "#") (trimSpace l)) = true
    · have hc : lineCandidate l = none := by
        unfold lineCandidate
        rw [if_pos h]
      unfold scanLines
      rw [if_pos h, ih, List.findSome?_cons, hc]
    · have hc : lineCandidate l = extractFromLine (trimSpace l) := by
        unfold lineCandidate
        rw [if_neg h]
      unfold scanLines
      rw [if_neg h, List.findSome?_cons, hc]
      cases hx : extractFromLine (trimSpace l) with
      | none => exact ih
      | some c => rfl

/-- C3 fails on the code as universally stated: the input `"} {"` contains a
first `{` and a last `}`, yet the structured path neither decodes nor falls
back — the Go slice `response[2:1]` panics (modelled by `none`). -/
theorem parseOllamaResponse_slice_counterexample :
    containsC [cbrace, ' ', obrace] obrace = true ∧
    containsC [cbrace, ' ', obrace] cbrace = true ∧
    parseOllamaResponse [cbrace, ' ', obrace] = none :=
  ⟨rfl, rfl, rfl⟩

/-- C3 (amended: the first `{` must sit at most one position past the last
`}`, otherwise the code panics on an out-of-range slice): the structured path
decodes the brace-delimited span; on decode failure it falls back, on success
it falls back exactly when both decoded command and warning are empty, and
otherwise populates command (trimmed), explanation, warning, confidence
(default 0.8 when absent or not a number) and alternatives (non-string
elements dropped). -/
theorem parseOllamaResponse_structured (response0 : Str) (startIdx endIdx : Nat)
    (hs : idxOfC (trimSpace response0) obrace = some startIdx)
    (he : lastIdxOfC (trimSpace response0) cbrace = some endIdx)
    (hle : startIdx ≤ endIdx + 1) :
    (jsonDecodeObj (structuredSpan (trimSpace response0) startIdx endIdx) = none →
      parseOllamaResponse response0
        = some (fallbackParseResponse (trimSpace response0))) ∧
    (∀ fields,
      jsonDecodeObj (structuredSpan (trimSpace response0) startIdx endIdx)
        = some fields →
      ((extractCommand fields = [] ∧ extractWarning fields = []) →
        parseOllamaResponse response0
          = some (fallbackParseResponse (trimSpace response0))) ∧
      (¬(extractCommand fields = [] ∧ extractWarning fields = []) →
        parseOllamaResponse response0
          = some { command := extractCommand fields
                   explanation := extractExplanation fields
                   warning := extractWarning fields
                   confidence := extractConfidence fields
                   alternatives := extractAlternatives fields })) := by
  have hng : ¬(startIdx > endIdx + 1) := by omega
  constructor
  · intro hdec
    unfold parseOllamaResponse
    rw [hs, he]
    show (if startIdx > endIdx + 1 then none else _) = _
    rw [if_neg hng, hdec]
  · intro fields hdec
    constructor
    · intro hempty
      unfold parseOllamaResponse
      rw [hs, he]
      show (if startIdx > endIdx + 1 then none else _) = _
      rw [if_neg hng, hdec]
      show (if extractCommand fields = [] ∧ extractWarning fields = [] then _ else _) = _
      rw [if_pos hempty]
    · intro hne
      unfold parseOllamaResponse
      rw [hs, he]
      show (if startIdx > endIdx + 1 then none else _) = _
      rw [if_neg hng, hdec]
      show (if extractCommand fields = [] ∧ extractWarning fields = [] then _ else _) = _
      rw [if_neg hne]

/-- Witness for C3 at the synthetic reply: the structured path yields
command "ls -la", confidence 0.9 and an empty warning. -/
theorem parseOllamaResponse_structured_witness :
    (idxOfC (trimSpace cJsonReply) obrace = some 0 ∧
     lastIdxOfC (trimSpace cJsonReply) cbrace = some 54 ∧
     0 ≤ 54 + 1 ∧
     jsonDecodeObj (structuredSpan (trimSpace cJsonReply) 0 54) = some cJsonFields ∧
     ¬(extractCommand cJsonFields = [] ∧ extractWarning cJsonFields = [])) ∧
    parseOllamaResponse cJsonReply
      = some { command := str "ls -la", explanation := str "x", warning := [],
               confidence := 9/10, alternatives := [] } := by
  refine ⟨⟨by decide, by decide, by omega, rfl, by decide⟩, ?_⟩
  have h := ((parseOllamaResponse_structured cJsonReply 0 54 (by decide) (by decide)
    (by omega)).2 cJsonFields rfl).2 (by decide)
  rw [h]
  simp only [Option.some.injEq, CommandResponse.mk.injEq]
  refine ⟨by decide, by decide, by decide, ?_, by decide⟩
  have hl : lastLookup cJsonFields (str "confidence") = some (JVal.jnum 9 10) := rfl
  unfold extractConfidence
  rw [hl]
  norm_num

/-- C4: the fallback parser is total and always returns confidence exactly
0.3, the fixed non-empty advisory warning and the fixed explanation; its
command is the first-match extraction over the lines (blank and comment
lines skipped, the three rules in priority order inside `extractFromLine`),
with the literal placeholder when no line matches or the matched extraction
is empty; the returned command is never empty. -/
theorem fallbackParseResponse_spec (response : Str) :
    (fallbackParseResponse response).confidence = 3/10 ∧
    (fallbackParseResponse response).warning = fallbackWarning ∧
    fallbackWarning ≠ [] ∧
    (fallbackParseResponse response).explanation = fallbackExplanation ∧
    (∀ c, (splitChar response '\n').findSome? lineCandidate = some c → c ≠ [] →
      (fallbackParseResponse response).command = c) ∧
    ((splitChar response '\n').findSome? lineCandidate = some [] ∨
      (splitChar response '\n').findSome? lineCandidate = none →
      (fallbackParseResponse response).command = placeholderCommand) ∧
    (fallbackParseResponse response).command ≠ [] := by
  have hs : scanLines (splitChar response '\n')
      = (splitChar response '\n').findSome? lineCandidate :=
    scanLines_eq_findSome _
  refine ⟨rfl, rfl, by decide, rfl, ?_, ?_, ?_⟩
  · intro c hc hcne
    show fallbackCommand response = c
    unfold fallbackCommand
    rw [hs, hc]
    show (if c = [] then placeholderCommand else c) = c
    rw [if_neg hcne]
  · intro h
    show fallbackCommand response = placeholderCommand
    unfold fallbackCommand
    rcases h with h | h
    · rw [hs, h]
      show (if ([] : Str) = [] then placeholderCommand else []) = placeholderCommand
      rw [if_pos rfl]
    · rw [hs, h]
      show (if ([] : Str) = [] then placeholderCommand else []) = placeholderCommand
      rw [if_pos rfl]
  · show fallbackCommand response ≠ []
    unfold fallbackCommand
    cases hsc : scanLines (splitChar response '\n') with
    | none =>
      show (if ([] : Str) = [] then placeholderCommand else []) ≠ []
      rw [if_pos rfl]
      decide
    | some c =>
      by_cases hce : c = []
      · subst hce
        show (if ([] : Str) = [] then placeholderCommand else []) ≠ []
        rw [if_pos rfl]
        decide
      · show (if c = [] then placeholderCommand else c) ≠ []
        rw [if_neg hce]
        exact hce

/-- Witness for C4 at the literal reply "Sure! Try this:\n\n$ du -sh .\n":
the shell-prompt rule fires on the third line and yields "du -sh .". -/
theorem fallbackParseResponse_spec_witness :
    ((splitChar cFallbackReply '\n').findSome? lineCandidate
        = some (str "du -sh .") ∧
      str "du -sh ." ≠ ([] : Str)) ∧
    (fallbackParseResponse cFallbackReply).command = str "du -sh ." ∧
    (fallbackParseResponse cFallbackReply).confidence = 3/10 ∧
    (fallbackParseResponse cFallbackReply).warning = fallbackWarning ∧
    fallbackWarning ≠ [] :=
  ⟨⟨by decide, by decide⟩,
   (fallbackParseResponse_spec cFallbackReply).2.2.2.2.1 _ (by decide) (by decide),
   (fallbackParseResponse_spec cFallbackReply).1,
   (fallbackParseResponse_spec cFallbackReply).2.1,
   (fallbackParseResponse_spec cFallbackReply).2.2.1⟩

/-- C9: a record with a non-empty error field makes the pull fail
immediately — the callback trace covers exactly the clean records before it,
that record itself is never forwarded, and the surrounding download creates
no local marker; a stream whose records are all clean (and whose tail
decodes) is a success whose trace covers every record; progress is computed
only under the positive-total guard. -/
theorem pullModel_error_aborts (records : List OllamaPullResponse)
    (tailErr : Bool) :
    (∀ pre r post, records = pre ++ r :: post →
      pre.all (fun q => q.error.isEmpty) = true → r.error ≠ [] →
      PullModel records tailErr
        = (pre.map (fun q => (q.status, pullProgress q)),
           Except.error (str "ollama error: " ++ r.error)) ∧
      ∀ localMarker remote modelName,
        (DownloadModel localMarker remote records tailErr modelName).2 = false) ∧
    (records.all (fun q => q.error.isEmpty) = true → tailErr = false →
      PullModel records tailErr
        = (records.map (fun q => (q.status, pullProgress q)), Except.ok ())) ∧
    (∀ r : OllamaPullResponse, ¬(r.total > 0) → pullProgress r = 0) := by
  refine ⟨?_, ?_, ?_⟩
  · intro pre r post hsplit hclean herr
    have hfail : PullModel records tailErr
        = (pre.map (fun q => (q.status, pullProgress q)),
           Except.error (str "ollama error: " ++ r.error)) := by
      subst hsplit
      induction pre with
      | nil =>
        show PullModel (r :: post) tailErr = _
        unfold PullModel
        rw [if_pos herr]
        rfl
      | cons q pre ih =>
        rw [List.all_cons, Bool.and_eq_true] at hclean
        have hq : ¬(q.error ≠ []) := by
          rw [List.isEmpty_iff] at hclean
          exact fun hne => hne hclean.1
        show PullModel (q :: (pre ++ r :: post)) tailErr = _
        unfold PullModel
        rw [if_neg hq, ih hclean.2]
        rfl
    refine ⟨hfail, ?_⟩
    intro localMarker remote modelName
    unfold DownloadModel
    cases hfind : (ListAvailableModels localMarker remote).find?
        (fun m => m.name == modelName) with
    | none => rfl
    | some modelInfo =>
      cases remote with
      | unreachable => rfl
      | listFailure =>
        by_cases hav : IsModelAvailableInOllama RemoteState.listFailure
            modelInfo.ollamaName = true
        · simp only [hav, if_pos]
        · simp only [Bool.not_eq_true] at hav
          simp only [hav, Bool.false_eq_true, if_false]
          rw [hfail]
      | available ms =>
        by_cases hav : IsModelAvailableInOllama (RemoteState.available ms)
            modelInfo.ollamaName = true
        · simp only [hav, if_pos]
        · simp only [Bool.not_eq_true] at hav
          simp only [hav, Bool.false_eq_true, if_false]
          rw [hfail]
  · intro hclean htail
    subst htail
    induction records with
    | nil => rfl
    | cons q rs ih =>
      rw [List.all_cons, Bool.and_eq_true] at hclean
      have hq : ¬(q.error ≠ []) := by
        rw [List.isEmpty_iff] at hclean
        exact fun hne => hne hclean.1
      show PullModel (q :: rs) false = _
      unfold PullModel
      rw [if_neg hq, ih hclean.2]
      rfl
  · intro r hng
    unfold pullProgress
    rw [if_neg hng]

/-- Witness for C9: a stream with one clean record, then an error record,
then a further record; and separately an all-clean two-record stream. -/
theorem pullModel_error_aborts_witness :
    (([⟨str "downloading", [], 2, 1, []⟩] : List OllamaPullResponse).all
        (fun q => q.error.isEmpty) = true ∧
     str "boom" ≠ ([] : Str) ∧
     PullModel [⟨str "downloading", [], 2, 1, []⟩,
                ⟨[], [], 0, 0, str "boom"⟩,
                ⟨str "after", [], 0, 0, []⟩] false
       = ([(str "downloading",
            pullProgress ⟨str "downloading", [], 2, 1, []⟩)],
          Except.error (str "ollama error: " ++ str "boom")) ∧
     (DownloadModel (fun _ => true)
        (RemoteState.available [⟨str "llama3.2:3b"⟩])
        [⟨str "downloading", [], 2, 1, []⟩,
         ⟨[], [], 0, 0, str "boom"⟩,
         ⟨str "after", [], 0, 0, []⟩] false (str "mistral:7b")).2 = false) ∧
    PullModel [⟨str "a", [], 0, 0, []⟩, ⟨str "b", [], 0, 0, []⟩] false
      = ([(str "a", pullProgress ⟨str "a", [], 0, 0, []⟩),
          (str "b", pullProgress ⟨str "b", [], 0, 0, []⟩)],
         Except.ok ()) := by
  have h := pullModel_error_aborts
    [⟨str "downloading", [], 2, 1, []⟩, ⟨[], [], 0, 0, str "boom"⟩,
     ⟨str "after", [], 0, 0, []⟩] false
  have h1 := h.1 [⟨str "downloading", [], 2, 1, []⟩] ⟨[], [], 0, 0, str "boom"⟩
    [⟨str "after", [], 0, 0, []⟩] rfl (by decide) (by decide)
  refine ⟨⟨by decide, by decide, h1.1, h1.2 _ _ _⟩, ?_⟩
  exact (pullModel_error_aborts
    [⟨str "a", [], 0, 0, []⟩, ⟨str "b", [], 0, 0, []⟩] false).2.1
    (by decide) rfl

/-- C8 fails on the code: with `safety.require_confirm` unset, a successful
generation returns the interpreted response untouched even though the safety
classifier would have modified it — the classifier does not run on every
response. -/
theorem generateCommand_skips_safety_counterexample :
    GenerateCommand cfgNoConfirm (fun _ => true) remoteStd
        (GenOutcome.ok cDangerReply) = GenResult.success cDangerResp ∧
    CheckCommand cfgNoConfirm.dangerousCommands cDangerResp ≠ cDangerResp := by
  constructor
  · rfl
  · intro h
    have hw := congrArg CommandResponse.warning h
    have : ¬((CheckCommand cfgNoConfirm.dangerousCommands cDangerResp).warning
        = cDangerResp.warning) := by decide
    exact this hw

/-- C8 (amended: the classifier runs on the interpreted response exactly when
the configuration's confirm-before-execute flag `safety.require_confirm` is
set; otherwise the interpreted response is returned unclassified): every
successful generation returns the interpreter's response, safety-classified
iff the flag is set. -/
theorem generateCommand_safety_gated (cfg : Config) (localMarker : Str → Bool)
    (remote : RemoteState) (raw : Str) (r0 : CommandResponse) (m : ModelInfo)
    (hremote : remote ≠ RemoteState.unreachable)
    (hcur : GetCurrentModel localMarker remote cfg.defaultModel = some m)
    (havail : IsModelAvailableInOllama remote m.name = true)
    (hparse : parseOllamaResponse raw = some r0) :
    GenerateCommand cfg localMarker remote (GenOutcome.ok raw)
      = GenResult.success
          (if cfg.requireConfirm then CheckCommand cfg.dangerousCommands r0
           else r0) := by
  have hgen : Generate (GenOutcome.ok raw) = GenResult.success r0 := by
    show (match parseOllamaResponse raw with
      | none => GenResult.crash
      | some r => GenResult.success r) = GenResult.success r0
    rw [hparse]
  cases remote with
  | unreachable => exact absurd rfl hremote
  | listFailure =>
    cases hrc : cfg.requireConfirm with
    | true =>
      simp only [GenerateCommand, hcur, havail, hgen, hrc, Bool.not_true,
        Bool.false_eq_true, if_false, if_true]
    | false =>
      simp only [GenerateCommand, hcur, havail, hgen, hrc, Bool.not_true,
        Bool.false_eq_true, if_false]
  | available ms =>
    cases hrc : cfg.requireConfirm with
    | true =>
      simp only [GenerateCommand, hcur, havail, hgen, hrc, Bool.not_true,
        Bool.false_eq_true, if_false, if_true]
    | false =>
      simp only [GenerateCommand, hcur, havail, hgen, hrc, Bool.not_true,
        Bool.false_eq_true, if_false]

/-- Witness for C8's amended statement with the safety gate on. -/
theorem generateCommand_safety_gated_witness :
    (remoteStd ≠ RemoteState.unreachable ∧
     GetCurrentModel (fun _ => true) remoteStd cfgConfirm.defaultModel
       = some { name := str "llama3.2:3b", ollamaName := str "llama3.2:3b",
                description := str "Llama 3.2 3B - Fast and efficient for command generation",
                size := str "2.0GB", modelType := str "Language Model", path := [],
                recommended := true, downloaded := true } ∧
     parseOllamaResponse cDangerReply = some cDangerResp) ∧
    GenerateCommand cfgConfirm (fun _ => true) remoteStd
        (GenOutcome.ok cDangerReply)
      = GenResult.success
          (if cfgConfirm.requireConfirm then
            CheckCommand cfgConfirm.dangerousCommands cDangerResp
           else cDangerResp) :=
  ⟨⟨by decide, rfl, rfl⟩,
   generateCommand_safety_gated cfgConfirm (fun _ => true) remoteStd cDangerReply
     cDangerResp
     { name := str "llama3.2:3b", ollamaName := str "llama3.2:3b",
       description := str "Llama 3.2 3B - Fast and efficient for command generation",
       size := str "2.0GB", modelType := str "Language Model", path := [],
       recommended := true, downloaded := true }
     (by decide) rfl (by decide) rfl⟩

/-- C10 names a code bug: `SaveFeedback` acquires the manager's mutex and
then calls `LoadFeedback`, which acquires the same non-reentrant mutex — the
call deadlocks on every input and never returns, while `LoadFeedback` alone
completes and releases the mutex. -/
theorem saveFeedback_deadlocks :
    runLockTrace false saveFeedbackLockTrace = none ∧
    runLockTrace false loadFeedbackLockTrace = some false := by
  decide

end ShellAgent
